import Mathlib

/-!
# Verification of the btc-staker staking lifecycle engine

Shallow embedding of the staking lifecycle engine from
`src/staker/stakerapp.go` and the service client from
`src/unnamed/part_000`, together with theorems settling the claims of
the natural-language specification.

Conventions:
* Go machine integers are modelled as `Nat` or `Int`; where `uint32`
  wrap-around matters, an explicit `% 2 ^ 32` is written.
* External collaborators (wallet, notifier, coordinator client) are
  modelled by their observable answers, passed in as parameters; the
  effects a function performs are collected into explicit action lists
  in source order.
* Store code (package `stakerdb`) and a few engine helpers live in
  repository files that are not part of `src/`; where a definition is
  taken from the specification instead of source, its doc comment
  starts with `Modelled from the spec:`.
-/

namespace BtcStaker

/-- Lifecycle states of a tracked transaction, from `proto.TransactionState`
(the enum values used throughout `stakerapp.go`). -/
inductive TransactionState where
  | SENT_TO_BTC
  | CONFIRMED_ON_BTC
  | SENT_TO_BABYLON
  | UNBONDING_STARTED
  | UNBONDING_SIGNATURES_RECEIVED
  | UNBONDING_CONFIRMED_ON_BTC
  | SPENT_ON_BTC
  deriving DecidableEq, Repr

/-- Internal slashing fee floor, `minSlashingFee = btcutil.Amount(1000)`
(stakerapp.go line 76). Satoshi amounts are modelled as `Int`
(btcutil.Amount is int64). -/
def minSlashingFee : Int := 1000

/-- Confirmations after which a transaction spending the staking tx is
considered confirmed, `SpendStakeTxConfirmations = 3` (stakerapp.go line 84). -/
def SpendStakeTxConfirmations : Nat := 3

/-- Wall-clock timeout for waiting for spend confirmations, in seconds:
`timeoutWaitingForSpendConfirmation = 2 * time.Hour` (stakerapp.go line 88). -/
def timeoutWaitingForSpendConfirmationSeconds : Nat := 2 * 60 * 60

/-- Confirmations after which the unbonding transaction is considered
confirmed, `UnbondingTxConfirmations = 6` (stakerapp.go line 116). -/
def UnbondingTxConfirmations : Nat := 6

/-- Retry interval for sending the unbonding tx and registering its
confirmation watch, in seconds: `unbondingSendRetryTimeout = 30 * time.Second`
(stakerapp.go line 111). -/
def unbondingSendRetryTimeoutSeconds : Nat := 30

/-- Minimum fee rate floor, `MinFeePerKb = txrules.DefaultRelayFeePerKb`
(stakerapp.go line 108). The value of that external btcwallet constant is
1000 satoshi per kilobyte, i.e. 1 sat/byte, as the spec states. -/
def MinFeePerKb : Int := 1000

/-- The uint32 modulus, for the places where Go performs uint32 arithmetic. -/
def U32 : Nat := 2 ^ 32

/-- Numeric fields of the coordinator parameter set `cl.StakingParams`
(babylonclient package, outside `src/`) that `stakerapp.go` reads:
satoshi fee as `Int` (int64 amount), block counts as `Nat` (uint32). -/
structure StakingParams where
  minSlashingTxFeeSat : Int
  confirmationTimeBlocks : Nat
  finalizationTimeoutBlocks : Nat
  deriving DecidableEq, Repr

/-- Embeds `getSlashingFee` (stakerapp.go lines 800-812): the fee reported
by the coordinator is used unless it is below the internal floor, in which
case the floor is used. -/
def getSlashingFee (p : StakingParams) : Int :=
  if p.minSlashingTxFeeSat < minSlashingFee then minSlashingFee
  else p.minSlashingTxFeeSat

/-- Embeds `GetMinStakingTime` (stakerapp.go lines 1326-1333):
`2*p.FinalizationTimeoutBlocks + p.ConfirmationTimeBlocks` computed in
uint32 arithmetic, hence the `% U32`. -/
def GetMinStakingTime (p : StakingParams) : Nat :=
  (2 * p.finalizationTimeoutBlocks + p.confirmationTimeBlocks) % U32

/-- Embeds the staking-time precheck of `StakeFunds` (stakerapp.go lines
1426-1430): `if uint32(stakingTimeBlocks) < minStakingTime` fail, else pass.
The argument is the requested staking time in blocks (a uint16 in Go, whose
widening cast to uint32 is exact). -/
def stakingTimePrecheckPasses (p : StakingParams) (t : Nat) : Bool :=
  if t < GetMinStakingTime p then false else true

/-- Externally visible actions performed by `StakeFunds` (stakerapp.go lines
1394-1508), in source order. Wallet, coordinator and builder calls are
modelled as opaque-free trace entries; their results are assumed successful
so that the control flow of the validation pipeline is exercised. -/
inductive SFAction where
  | checkValidator
  | getParams
  | unlockWallet
  | dumpPrivKey
  | generatePop
  | buildStakingOutput
  | createAndSignTx
  | submitRequest
  deriving DecidableEq, Repr

/-- Validation errors of `StakeFunds` relevant to the claims. -/
inductive SFError where
  | amountTooLow
  | stakingTimeTooLow
  deriving DecidableEq, Repr

/-- Embeds the validation pipeline of `StakeFunds` (stakerapp.go lines
1409-1493): validator check and parameter query happen first, then the
amount check (line 1421), then the staking-time check (line 1427); only
when both pass does the function unlock the wallet, dump the private key,
build the proof of possession, build the staking output, create and sign
the staking transaction and submit the request to the engine. Returns the
result together with the list of actions performed. -/
def stakeFunds (p : StakingParams) (stakingAmount : Int) (stakingTimeBlocks : Nat) :
    Except SFError Unit × List SFAction :=
  let pre := [SFAction.checkValidator, SFAction.getParams]
  if stakingAmount ≤ getSlashingFee p then
    (Except.error SFError.amountTooLow, pre)
  else if stakingTimeBlocks < GetMinStakingTime p then
    (Except.error SFError.stakingTimeTooLow, pre)
  else
    (Except.ok (), pre ++
      [SFAction.unlockWallet, SFAction.dumpPrivKey, SFAction.generatePop,
       SFAction.buildStakingOutput, SFAction.createAndSignTx, SFAction.submitRequest])

/-- Embeds the service-client `Unbond` function (src/unnamed/part_000 lines
27-50). A negative fee rate is rejected before the daemon RPC is made; a
zero fee rate forwards a nil fee pointer; a positive fee rate is forwarded
as is. `Except.ok o` records that the `UnbondStaking` RPC was issued with
fee argument `o`; `Except.error` means no RPC was issued. -/
def serviceUnbond (feeRate : Int) : Except String (Option Int) :=
  if feeRate < 0 then
    Except.error "fee rate must be non-negative"
  else
    Except.ok (if feeRate > 0 then some feeRate else none)

/-- Modelled from the spec: the tracked-transaction record of the store
(package `stakerdb`, not under `src/`), restricted to the two fields the
claims read through `stakerapp.go`: the `watched` flag (section 3 of the
spec) and the current lifecycle state. -/
structure StoredTransaction where
  watched : Bool
  state : TransactionState
  deriving DecidableEq, Repr

/-- A staking request arriving on `stakingRequestChan`. In Go the request
type lives outside `src/`; `stakerapp.go` only consults `req.isWatched()`
(watched variant carries externally supplied slashing data), modelled here
as a boolean. -/
structure StakingRequest where
  watched : Bool
  deriving DecidableEq, Repr

/-- Actions of the engine loop `handleStaking` while serving one staking
request (stakerapp.go lines 1088-1152), in source order. -/
inductive EngineAction where
  | sendRawTransaction
  | addWatchedTransaction
  | addTransaction
  | registerConfirmationWatch
  | errChanSend
  | successChanSend
  deriving DecidableEq, Repr

/-- Embeds the `stakingRequestChan` branch of `handleStaking` (stakerapp.go
lines 1088-1152). For a watched request the record is stored with
`AddWatchedTransaction`; for an owned request the staking tx is first
broadcast with `SendRawTransaction` and then stored with `AddTransaction`;
in both cases a confirmation watch is registered and exactly one of the
per-request channels is written. The booleans are the success answers of
the broadcast, the store insert and the watch registration; a failed step
still appears in the trace (the attempt happened) and routes to the error
channel via `continue`. -/
def handleStakingRequest (req : StakingRequest) (sendOk addOk registerOk : Bool) :
    List EngineAction :=
  if req.watched then
    if addOk = false then
      [EngineAction.addWatchedTransaction, EngineAction.errChanSend]
    else if registerOk = false then
      [EngineAction.addWatchedTransaction, EngineAction.registerConfirmationWatch,
       EngineAction.errChanSend]
    else
      [EngineAction.addWatchedTransaction, EngineAction.registerConfirmationWatch,
       EngineAction.successChanSend]
  else
    if sendOk = false then
      [EngineAction.sendRawTransaction, EngineAction.errChanSend]
    else if addOk = false then
      [EngineAction.sendRawTransaction, EngineAction.addTransaction,
       EngineAction.errChanSend]
    else if registerOk = false then
      [EngineAction.sendRawTransaction, EngineAction.addTransaction,
       EngineAction.registerConfirmationWatch, EngineAction.errChanSend]
    else
      [EngineAction.sendRawTransaction, EngineAction.addTransaction,
       EngineAction.registerConfirmationWatch, EngineAction.successChanSend]

/-- Number of per-request channel writes (error channel or success channel)
in an engine trace. -/
def chanWrites (l : List EngineAction) : Nat :=
  (l.filter (fun a =>
    decide (a = EngineAction.errChanSend ∨ a = EngineAction.successChanSend))).length

/-- Precondition failures of `UnbondStaking` (stakerapp.go lines 1732-1750),
in the order the checks appear in the source. -/
inductive UnbondError where
  | txNotFound
  | watchedTx
  | wrongState
  | feeTooLow
  deriving DecidableEq, Repr

/-- How a call to `UnbondStaking` returns to its caller: a direct error
return from the function body before any request object exists, an error
received over the error channel of the submitted request, or the success
hash received over the success channel. -/
inductive UnbondReturn where
  | directError (e : UnbondError)
  | channelError (e : UnbondError)
  | successHash
  deriving DecidableEq, Repr

/-- Actions `UnbondStaking` performs after its prechecks pass, in source
order (stakerapp.go lines 1752-1797): coordinator parameter query, staker
address decoding, wallet unlock and private key dump, construction of the
undelegation data, and the push of the unbonding request onto
`sendUnbondingRequestChan`. -/
inductive UnbondAction where
  | getParams
  | decodeAddress
  | dumpPrivKey
  | buildUndelegationData
  | pushRequest
  deriving DecidableEq, Repr

/-- The trace of a run of `UnbondStaking` whose prechecks all passed. -/
def unbondFullTrace : List UnbondAction :=
  [UnbondAction.getParams, UnbondAction.decodeAddress, UnbondAction.dumpPrivKey,
   UnbondAction.buildUndelegationData, UnbondAction.pushRequest]

/-- The four precondition checks of `UnbondStaking` (stakerapp.go lines
1732-1750) in source order: the record must exist in the store, must not be
watched, must be in state SENT_TO_BABYLON, and the fee rate must be at
least `MinFeePerKb`. Returns the first failing check, or `none` when all
pass. -/
def unbondPrecheck (rec : Option StoredTransaction) (fee : Int) :
    Option UnbondError :=
  match rec with
  | none => some UnbondError.txNotFound
  | some tx =>
    if tx.watched then some UnbondError.watchedTx
    else if tx.state ≠ TransactionState.SENT_TO_BABYLON then
      some UnbondError.wrongState
    else if fee < MinFeePerKb then some UnbondError.feeTooLow
    else none

/-- Embeds `UnbondStaking` (stakerapp.go lines 1713-1812). Inputs: the
store answer for the staking tx hash (`GetTransaction`), the optional fee
rate of the request, the fee estimator answer used when the fee rate is
nil, and the engine answer for the submitted request (`some e` when the
engine pushes an error onto the request error channel, `none` when it acks
success over the success channel). A failing precondition is a direct
`return nil, err` from the function body: it happens before the unbonding
request object is created, so it performs none of the later actions and no
per-request channel is involved. -/
def unbondStaking (rec : Option StoredTransaction) (feeRate : Option Int)
    (estimatedFeeRate : Int) (engineAnswer : Option UnbondError) :
    UnbondReturn × List UnbondAction :=
  let fee := match feeRate with
    | none => estimatedFeeRate
    | some f => f
  match unbondPrecheck rec fee with
  | some e => (UnbondReturn.directError e, [])
  | none =>
    match engineAnswer with
    | some e => (UnbondReturn.channelError e, unbondFullTrace)
    | none => (UnbondReturn.successHash, unbondFullTrace)

/-- State of the record after a call to `UnbondStaking` completes.
`UnbondStaking` itself never writes the store; the only write on the
unbonding path is `SetTxUnbondingStarted`, performed by the engine loop in
the `sendUnbondingRequestConfirmChan` branch (stakerapp.go lines 1218-1237)
after the undelegation was accepted, which is exactly the successful
return. On every other return the record is untouched. -/
def unbondStakingFinalState (rec : Option StoredTransaction) (feeRate : Option Int)
    (estimatedFeeRate : Int) (engineAnswer : Option UnbondError) :
    Option StoredTransaction :=
  match (unbondStaking rec feeRate estimatedFeeRate engineAnswer).1 with
  | UnbondReturn.successHash =>
      rec.map (fun tx => { tx with state := TransactionState.UNBONDING_STARTED })
  | _ => rec

/-- Precondition failures of `SpendStake` relevant to the claims. -/
inductive SpendError where
  | txNotFound
  | watchedTx
  deriving DecidableEq, Repr

/-- Actions performed by `SpendStake` (stakerapp.go lines 1587-1697) after
its prechecks, in source order. `registerConfWatch n` registers a
confirmation watch for `n` confirmations. -/
inductive SpendAction where
  | decodeAddress
  | buildSpendTx
  | dumpPrivKey
  | sendRawTransaction
  | registerConfWatch (numConfs : Nat)
  | spawnWaitForSpendConf
  deriving DecidableEq, Repr

/-- Embeds the precheck-and-act structure of `SpendStake` (stakerapp.go
lines 1587-1697). The store answer for the staking tx hash is the input;
a missing record or a watched record is rejected before any wallet key
access or broadcast. On the successful path the spend tx is built, the
wallet key is dumped for the witness, the tx is broadcast, a watch for
`SpendStakeTxConfirmations` confirmations is registered and the waiting
helper is spawned; external calls are assumed to succeed. -/
def spendStakeChecks (rec : Option StoredTransaction) :
    Except SpendError Unit × List SpendAction :=
  match rec with
  | none => (Except.error SpendError.txNotFound, [])
  | some tx =>
    if tx.watched then (Except.error SpendError.watchedTx, [])
    else
      (Except.ok (),
       [SpendAction.decodeAddress, SpendAction.buildSpendTx, SpendAction.dumpPrivKey,
        SpendAction.sendRawTransaction,
        SpendAction.registerConfWatch SpendStakeTxConfirmations,
        SpendAction.spawnWaitForSpendConf])

/-- The one event that decides a run of `waitForSpendConfirmation`:
the notifier delivers the confirmation, the two-hour timer fires, or the
quit signal fires. -/
inductive SpendWaitEvent where
  | confirmed
  | timedOut
  | quitSignal
  deriving DecidableEq, Repr

/-- Outcome of `waitForSpendConfirmation`: either a spend confirmation is
pushed onto `spendTxConfirmationChan` for the engine, or the helper exits
without any action. -/
inductive SpendWaitOutcome where
  | pushConfirmation
  | exitNoAction
  deriving DecidableEq, Repr

/-- Embeds `waitForSpendConfirmation` (stakerapp.go lines 1546-1578): if
the quit signal already fired at entry the helper cancels and exits; the
confirmation event pushes to the engine; the `ctx.Done` timeout (after
`timeoutWaitingForSpendConfirmation`) and the quit signal exit silently. -/
def waitForSpendConfirmation (quitAtStart : Bool) (ev : SpendWaitEvent) :
    SpendWaitOutcome :=
  if quitAtStart then SpendWaitOutcome.exitNoAction
  else match ev with
    | SpendWaitEvent.confirmed => SpendWaitOutcome.pushConfirmation
    | SpendWaitEvent.timedOut => SpendWaitOutcome.exitNoAction
    | SpendWaitEvent.quitSignal => SpendWaitOutcome.exitNoAction

/-- Modelled from the spec: the store transition `SetSpentOnBtc`
(`SetTxSpentOnBtc` in `stakerdb`, not under `src/`); spec section 4.1:
legal from `SentToCoordinator` or `UnbondingConfirmedOnBtc` only. -/
def setTxSpentOnBtc (s : TransactionState) : Except Unit TransactionState :=
  if s = TransactionState.SENT_TO_BABYLON ∨
      s = TransactionState.UNBONDING_CONFIRMED_ON_BTC then
    Except.ok TransactionState.SPENT_ON_BTC
  else Except.error ()

/-- Final persisted state of the delegation after one run of the spend
waiting helper: the engine branch `spendTxConfirmationChan` (stakerapp.go
lines 1207-1216) applies `SetTxSpentOnBtc` when and only when the helper
pushed a confirmation; otherwise nothing is written. -/
def spendFlowFinalState (s : TransactionState) (quitAtStart : Bool)
    (ev : SpendWaitEvent) : TransactionState :=
  match waitForSpendConfirmation quitAtStart ev with
  | SpendWaitOutcome.pushConfirmation =>
      match setTxSpentOnBtc s with
      | Except.ok s2 => s2
      | Except.error _ => s
  | SpendWaitOutcome.exitNoAction => s

/-- Outcome of one iteration of a retry loop in `sendUnbondingTxToBtc`
(stakerapp.go lines 941-1003): the attempt succeeds, or it fails and the
30-second timer fires first (retry), or it fails and the quit signal fires
first (return nil). -/
inductive AttemptOutcome where
  | success
  | failRetry
  | failQuit
  deriving DecidableEq, Repr

/-- How a retry loop ends on a given schedule of attempt outcomes. `pending`
means the finite schedule ran out before a decision; the real loop would
keep iterating, so theorems assume a decisive schedule. -/
inductive LoopResult where
  | ok
  | quitSignal
  | pending
  deriving DecidableEq, Repr

/-- Runs one retry loop of `sendUnbondingTxToBtc`: break on success,
continue after a failure when the `time.After(unbondingSendRetryTimeout)`
arm fires, return nil when the quit arm fires. -/
def runRetryLoop : List AttemptOutcome → LoopResult
  | [] => LoopResult.pending
  | AttemptOutcome.success :: _ => LoopResult.ok
  | AttemptOutcome.failRetry :: rest => runRetryLoop rest
  | AttemptOutcome.failQuit :: _ => LoopResult.quitSignal

/-- Total wall-clock time, in seconds, spent waiting between attempts of a
retry loop: each failed attempt that retries waits exactly
`unbondingSendRetryTimeoutSeconds`. -/
def retryLoopWaitTime : List AttemptOutcome → Nat
  | [] => 0
  | AttemptOutcome.success :: _ => 0
  | AttemptOutcome.failRetry :: rest =>
      unbondingSendRetryTimeoutSeconds + retryLoopWaitTime rest
  | AttemptOutcome.failQuit :: _ => 0

/-- Number of retried failures before the loop decision. -/
def retriesBeforeDecision : List AttemptOutcome → Nat
  | [] => 0
  | AttemptOutcome.success :: _ => 0
  | AttemptOutcome.failRetry :: rest => retriesBeforeDecision rest + 1
  | AttemptOutcome.failQuit :: _ => 0

/-- Embeds `sendUnbondingTxToBtc` (stakerapp.go lines 941-1003): first the
broadcast loop, then the registration loop; `some ()` stands for the
registered confirmation event returned on success, `none` for the nil
return taken when the quit signal fires in either loop. -/
def sendUnbondingTxToBtc (sends regs : List AttemptOutcome) : Option Unit :=
  match runRetryLoop sends with
  | LoopResult.ok =>
    match runRetryLoop regs with
    | LoopResult.ok => some ()
    | _ => none
  | _ => none

/-- Wallet answer of `TxDetails` (the walletcontroller status enum):
not found, in mempool, or in chain. -/
inductive TxStatus where
  | notFound
  | inMempool
  | inChain
  deriving DecidableEq, Repr

/-- Coordinator answer of `QueryDelegationInfo` for a staking tx hash:
delegation unknown, known without undelegation, or known with an
undelegation recorded. -/
inductive DelegationQueryResult where
  | notFound
  | activeNoUndelegation
  | undelegationPresent
  deriving DecidableEq, Repr

/-- One stored record as seen by the startup reconciler, bundled with the
answers the external services give for it: `alreadyOnBabylon` is the
coordinator answer of `IsTxAlreadyPartOfDelegation`, `txStatus` the wallet
answer of `TxDetails` for the transaction the reconciler asks about in the
given state, `delegationQuery` the coordinator answer of
`QueryDelegationInfo`. `hash` stands in for the staking txid. -/
structure RecordInfo where
  hash : Nat
  state : TransactionState
  alreadyOnBabylon : Bool
  txStatus : TxStatus
  delegationQuery : DelegationQueryResult
  deriving DecidableEq, Repr

/-- Resume actions the startup reconciler `checkTransactionsStatus`
(stakerapp.go lines 472-756) performs, tagged with the record hash. -/
inductive ReconcilerAction where
  | checkSentToBtc (h : Nat)
  | pushDelegationSuccess (h : Nat)
  | resubmitDelegation (h : Nat)
  | logConfirmedNotOnChain (h : Nat)
  | spawnSendUnbondingTx (h : Nat)
  | registerUnbondingConfWatch (h : Nat)
  | spawnPollUnbondingSignatures (h : Nat)
  | pushUnbondingStartedAck (h : Nat)
  | logDelegationNotFound (h : Nat)
  deriving DecidableEq, Repr

/-- Embeds the loop over `transactionConfirmedOnBtc` in
`checkTransactionsStatus` (stakerapp.go lines 561-616). When the record is
already part of a delegation on the coordinator, a success response is
pushed and the loop continues. Otherwise the wallet is asked for the tx:
if it is not in chain the record is logged and the Go code executes
`return nil` (line 597), ending `checkTransactionsStatus`; if it is in
chain a resubmission with a fresh inclusion proof is scheduled and the Go
code again executes `return nil` (line 614). The boolean in the result is
true when one of those early returns was taken. -/
def handleConfirmedLoop : List RecordInfo → List ReconcilerAction × Bool
  | [] => ([], false)
  | r :: rest =>
    if r.alreadyOnBabylon then
      let tail := handleConfirmedLoop rest
      (ReconcilerAction.pushDelegationSuccess r.hash :: tail.1, tail.2)
    else if r.txStatus ≠ TxStatus.inChain then
      ([ReconcilerAction.logConfirmedNotOnChain r.hash], true)
    else
      ([ReconcilerAction.resubmitDelegation r.hash], true)

/-- Embeds the per-record body of the loop over `transactionsOnBabylon` in
`checkTransactionsStatus` (stakerapp.go lines 618-753): for
UNBONDING_SIGNATURES_RECEIVED the unbonding tx is looked up and either
resent or watched; for UNBONDING_STARTED the signature polling task is
spawned; for SENT_TO_BABYLON the coordinator is queried and a crash before
the local `SetUnbondingStarted` write is repaired by pushing an unbonding
started ack. -/
def handleOnBabylonRecord (r : RecordInfo) : List ReconcilerAction :=
  if r.state = TransactionState.UNBONDING_SIGNATURES_RECEIVED then
    if r.txStatus = TxStatus.notFound then
      [ReconcilerAction.spawnSendUnbondingTx r.hash]
    else
      [ReconcilerAction.registerUnbondingConfWatch r.hash]
  else if r.state = TransactionState.UNBONDING_STARTED then
    [ReconcilerAction.spawnPollUnbondingSignatures r.hash]
  else if r.state = TransactionState.SENT_TO_BABYLON then
    match r.delegationQuery with
    | DelegationQueryResult.notFound => [ReconcilerAction.logDelegationNotFound r.hash]
    | DelegationQueryResult.activeNoUndelegation => []
    | DelegationQueryResult.undelegationPresent =>
        [ReconcilerAction.pushUnbondingStartedAck r.hash]
  else []

/-- The loop over `transactionsOnBabylon` (no early exit in any branch of
the source loop other than the fatal unknown-state error, which the typed
state enum rules out). -/
def handleBabylonLoop : List RecordInfo → List ReconcilerAction
  | [] => []
  | r :: rest => handleOnBabylonRecord r ++ handleBabylonLoop rest

/-- States collected into `transactionsOnBabylon` by the scan in
`checkTransactionsStatus` (stakerapp.go lines 509-528). -/
def isOnBabylonState : TransactionState → Bool
  | TransactionState.SENT_TO_BABYLON => true
  | TransactionState.UNBONDING_STARTED => true
  | TransactionState.UNBONDING_SIGNATURES_RECEIVED => true
  | _ => false

/-- Embeds `checkTransactionsStatus` (stakerapp.go lines 472-756): the scan
partitions the records by state (UNBONDING_CONFIRMED_ON_BTC and
SPENT_ON_BTC need no action), then the three loops run in order. Because
of the early `return nil` statements transcribed in `handleConfirmedLoop`,
the loop over coordinator-side records runs only when the confirmed loop
ran to completion. External calls are assumed to succeed (an error there
aborts startup in the source). -/
def checkTransactionsStatus (records : List RecordInfo) : List ReconcilerAction :=
  let sentToBtc := records.filter
    (fun r => decide (r.state = TransactionState.SENT_TO_BTC))
  let confirmed := records.filter
    (fun r => decide (r.state = TransactionState.CONFIRMED_ON_BTC))
  let onBabylon := records.filter (fun r => isOnBabylonState r.state)
  let firstLoop := sentToBtc.map (fun r => ReconcilerAction.checkSentToBtc r.hash)
  let confirmedLoop := handleConfirmedLoop confirmed
  if confirmedLoop.2 then firstLoop ++ confirmedLoop.1
  else firstLoop ++ confirmedLoop.1 ++ handleBabylonLoop onBabylon

/-- Structural steps of a public request operation, as they appear in the
source: the entry `select` on quit with a `default` arm, pure body work,
the unguarded send of the request onto an engine channel, and the final
`select` over the response channels and quit. -/
inductive OpStep where
  | entryQuitCheck
  | bodyWork
  | sendRequestToEngine
  | awaitResponseOrQuit
  deriving DecidableEq, Repr

/-- How a call that starts after the quit signal fired ends for the caller. -/
inductive CallOutcome where
  | nullNil
  | blockedForever
  | returnsDirectly
  deriving DecidableEq, Repr

/-- Steps of `StakeFunds` (stakerapp.go lines 1400-1507): entry quit check,
body, unguarded `stakingRequestChan` send, response select. -/
def stakeFundsSteps : List OpStep :=
  [OpStep.entryQuitCheck, OpStep.bodyWork, OpStep.sendRequestToEngine,
   OpStep.awaitResponseOrQuit]

/-- Steps of `UnbondStaking` (stakerapp.go lines 1715-1811): entry quit
check, body, unguarded `sendUnbondingRequestChan` send, response select. -/
def unbondStakingSteps : List OpStep :=
  [OpStep.entryQuitCheck, OpStep.bodyWork, OpStep.sendRequestToEngine,
   OpStep.awaitResponseOrQuit]

/-- Steps of `SpendStake` (stakerapp.go lines 1588-1696): entry quit check,
then the whole body runs inline and the result is returned directly. -/
def spendStakeSteps : List OpStep :=
  [OpStep.entryQuitCheck, OpStep.bodyWork]

/-- Steps of `WatchStaking` (stakerapp.go lines 1335-1391): there is no
entry quit check; the body runs, then the request is sent onto
`stakingRequestChan` by an unguarded send (line 1377), then the response
select (which does include a quit arm). -/
def watchStakingSteps : List OpStep :=
  [OpStep.bodyWork, OpStep.sendRequestToEngine, OpStep.awaitResponseOrQuit]

/-- Runs the steps of a public operation under the assumption that the quit
signal fired before the call: the entry check returns (nil, nil); body work
proceeds; an unguarded send on an engine channel blocks forever because the
engine loop `handleStaking` returned on quit (stakerapp.go lines 1274-1275)
and nothing receives; the final select takes its quit arm and returns
(nil, nil). A step list that ends without engine interaction returns its
result directly. -/
def runOpWhenQuitFired : List OpStep → CallOutcome
  | [] => CallOutcome.returnsDirectly
  | OpStep.entryQuitCheck :: _ => CallOutcome.nullNil
  | OpStep.bodyWork :: rest => runOpWhenQuitFired rest
  | OpStep.sendRequestToEngine :: _ => CallOutcome.blockedForever
  | OpStep.awaitResponseOrQuit :: _ => CallOutcome.nullNil

/-- C3: for every coordinator parameter set, the effective slashing fee
equals the reported `MinSlashingTxFeeSat` when that value is at least 1000
satoshi and equals the internal 1000-satoshi floor when the reported fee is
below it; a reported fee of 500 yields 1000, and the result is never below
1000. -/
theorem C3_effective_slashing_fee (p : StakingParams) :
    (minSlashingFee ≤ p.minSlashingTxFeeSat →
      getSlashingFee p = p.minSlashingTxFeeSat) ∧
    (p.minSlashingTxFeeSat < minSlashingFee → getSlashingFee p = minSlashingFee) ∧
    (p.minSlashingTxFeeSat = 500 → getSlashingFee p = 1000) ∧
    minSlashingFee ≤ getSlashingFee p := by
  simp only [getSlashingFee, minSlashingFee]
  split <;> omega

/-- Witness for C3 at concrete parameter sets: a reported fee of 500 is
lifted to 1000, a reported fee of 5000 is used as is. -/
theorem C3_effective_slashing_fee_witness :
    getSlashingFee ⟨500, 6, 10⟩ = 1000 ∧ getSlashingFee ⟨5000, 6, 10⟩ = 5000 :=
  ⟨(C3_effective_slashing_fee ⟨500, 6, 10⟩).2.2.1 rfl,
   (C3_effective_slashing_fee ⟨5000, 6, 10⟩).1 (by decide)⟩

/-- C4: the staking-time precheck of `StakeFunds` passes exactly when the
requested time is at least `GetMinStakingTime p`, which equals
`2*FinalizationTimeoutBlocks + ConfirmationTimeBlocks` (whenever that sum
fits in a uint32); a request at exactly the minimum passes, and a request
one block below it fails with the invalid-argument error before the wallet
is unlocked or any transaction is built. -/
theorem C4_min_staking_time_check (p : StakingParams) (t : Nat) :
    (stakingTimePrecheckPasses p t = true ↔ GetMinStakingTime p ≤ t) ∧
    (2 * p.finalizationTimeoutBlocks + p.confirmationTimeBlocks < U32 →
      GetMinStakingTime p =
        2 * p.finalizationTimeoutBlocks + p.confirmationTimeBlocks) ∧
    stakingTimePrecheckPasses p (GetMinStakingTime p) = true ∧
    (∀ amount : Int, getSlashingFee p < amount →
      ∀ u : Nat, u + 1 = GetMinStakingTime p →
        (stakeFunds p amount u).1 = Except.error SFError.stakingTimeTooLow ∧
        SFAction.unlockWallet ∉ (stakeFunds p amount u).2 ∧
        SFAction.createAndSignTx ∉ (stakeFunds p amount u).2) := by
  refine ⟨?_, ?_, ?_, ?_⟩
  · by_cases h : t < GetMinStakingTime p
    · simp [stakingTimePrecheckPasses, h]
    · simp [stakingTimePrecheckPasses, h]
      omega
  · intro h
    exact Nat.mod_eq_of_lt h
  · simp [stakingTimePrecheckPasses]
  · intro amount ham u hu
    have h1 : ¬ amount ≤ getSlashingFee p := not_le.mpr ham
    have h2 : u < GetMinStakingTime p := by omega
    simp [stakeFunds, h1, h2]

/-- Witness for C4 with `FinalizationTimeoutBlocks = 10` and
`ConfirmationTimeBlocks = 6`: the minimum is 26, a request of 26 blocks
passes the check, a request of 25 blocks fails before any build step. -/
theorem C4_min_staking_time_check_witness :
    stakingTimePrecheckPasses ⟨1000, 6, 10⟩ 26 = true ∧
    GetMinStakingTime ⟨1000, 6, 10⟩ = 26 ∧
    (stakeFunds ⟨1000, 6, 10⟩ 2000 25).1 = Except.error SFError.stakingTimeTooLow := by
  have h := C4_min_staking_time_check ⟨1000, 6, 10⟩ 26
  exact ⟨h.1.mpr (by decide), h.2.1 (by decide), (h.2.2.2 2000 (by decide) 25 (by decide)).1⟩

/-- C5: `StakeFunds` fails with the invalid-argument error when the staking
amount is at most the effective slashing fee, before unlocking the wallet,
building, or broadcasting anything; an amount of fee plus one passes this
check, an amount equal to the fee fails it. -/
theorem C5_amount_exceeds_slashing_fee (p : StakingParams) (amount : Int) (t : Nat) :
    (amount ≤ getSlashingFee p →
      (stakeFunds p amount t).1 = Except.error SFError.amountTooLow ∧
      SFAction.unlockWallet ∉ (stakeFunds p amount t).2 ∧
      SFAction.createAndSignTx ∉ (stakeFunds p amount t).2 ∧
      SFAction.submitRequest ∉ (stakeFunds p amount t).2) ∧
    (stakeFunds p (getSlashingFee p + 1) t).1 ≠ Except.error SFError.amountTooLow ∧
    (stakeFunds p (getSlashingFee p) t).1 = Except.error SFError.amountTooLow := by
  refine ⟨?_, ?_, ?_⟩
  · intro h
    simp [stakeFunds, h]
  · have h1 : ¬ getSlashingFee p + 1 ≤ getSlashingFee p := by omega
    simp only [stakeFunds, h1, if_false]
    split <;> simp
  · simp [stakeFunds]

/-- Witness for C5 at a parameter set with effective slashing fee 1000: an
amount of 1000 is rejected, an amount of 1001 passes the amount check. -/
theorem C5_amount_exceeds_slashing_fee_witness :
    (stakeFunds ⟨1000, 6, 10⟩ 1000 100).1 = Except.error SFError.amountTooLow ∧
    (stakeFunds ⟨1000, 6, 10⟩ 1001 100).1 ≠ Except.error SFError.amountTooLow := by
  have h := C5_amount_exceeds_slashing_fee ⟨1000, 6, 10⟩ 1000 100
  exact ⟨(h.1 (by decide)).1, h.2.1⟩

/-- C10: the service-client `Unbond` rejects a negative fee rate before
issuing the daemon RPC, forwards a nil fee rate for zero (leaving fee
estimation to the daemon), and forwards a positive fee rate exactly. -/
theorem C10_service_unbond_fee_rate (feeRate : Int) :
    (feeRate < 0 →
      serviceUnbond feeRate = Except.error "fee rate must be non-negative") ∧
    (feeRate = 0 → serviceUnbond feeRate = Except.ok none) ∧
    (0 < feeRate → serviceUnbond feeRate = Except.ok (some feeRate)) := by
  refine ⟨fun h => ?_, fun h => ?_, fun h => ?_⟩
  · simp [serviceUnbond, h]
  · subst h
    simp [serviceUnbond]
  · have h1 : ¬ feeRate < 0 := by omega
    simp [serviceUnbond, h1, h]

/-- Witness for C10 at fee rates -1, 0 and 5. -/
theorem C10_service_unbond_fee_rate_witness :
    serviceUnbond (-1) = Except.error "fee rate must be non-negative" ∧
    serviceUnbond 0 = Except.ok none ∧
    serviceUnbond 5 = Except.ok (some 5) :=
  ⟨(C10_service_unbond_fee_rate (-1)).1 (by decide),
   (C10_service_unbond_fee_rate 0).2.1 rfl,
   (C10_service_unbond_fee_rate 5).2.2 (by decide)⟩

/-- C1: evaluation of the embedded reconciler at the failing input. The
claim says that after handling a CONFIRMED_ON_BTC record (resubmission, or
log-and-skip when the wallet no longer reports the tx in chain) the
reconciler goes on to handle every remaining record. The source instead
executes `return nil` inside the loop (stakerapp.go lines 597 and 614):
with a CONFIRMED_ON_BTC record followed by an UNBONDING_STARTED record,
the whole run produces only the first record action, and the poll task of
the second record (shown by the third conjunct to be its resume action) is
never spawned. -/
theorem C1_reconciler_early_return :
    checkTransactionsStatus
      [⟨1, TransactionState.CONFIRMED_ON_BTC, false, TxStatus.inChain,
        DelegationQueryResult.activeNoUndelegation⟩,
       ⟨2, TransactionState.UNBONDING_STARTED, false, TxStatus.inChain,
        DelegationQueryResult.activeNoUndelegation⟩] =
      [ReconcilerAction.resubmitDelegation 1] ∧
    checkTransactionsStatus
      [⟨3, TransactionState.CONFIRMED_ON_BTC, false, TxStatus.notFound,
        DelegationQueryResult.activeNoUndelegation⟩,
       ⟨2, TransactionState.UNBONDING_STARTED, false, TxStatus.inChain,
        DelegationQueryResult.activeNoUndelegation⟩] =
      [ReconcilerAction.logConfirmedNotOnChain 3] ∧
    handleBabylonLoop
      [⟨2, TransactionState.UNBONDING_STARTED, false, TxStatus.inChain,
        DelegationQueryResult.activeNoUndelegation⟩] =
      [ReconcilerAction.spawnPollUnbondingSignatures 2] := by
  refine ⟨by decide, by decide, by decide⟩

/-- C2: for watched records the engine neither broadcasts the staking
transaction nor dumps the staker private key: the staking-request handler
trace of a watched request contains no `SendRawTransaction`; `UnbondStaking`
rejects a watched record with a direct error and an empty action trace (in
particular no key dump); `SpendStake` rejects a watched record before any
key access or broadcast. -/
theorem C2_watched_never_broadcast_never_dump (req : StakingRequest)
    (sendOk addOk registerOk : Bool) (tx : StoredTransaction)
    (feeRate : Option Int) (est : Int) (ans : Option UnbondError)
    (hreq : req.watched = true) (htx : tx.watched = true) :
    EngineAction.sendRawTransaction ∉ handleStakingRequest req sendOk addOk registerOk ∧
    (unbondStaking (some tx) feeRate est ans).1 =
      UnbondReturn.directError UnbondError.watchedTx ∧
    UnbondAction.dumpPrivKey ∉ (unbondStaking (some tx) feeRate est ans).2 ∧
    (spendStakeChecks (some tx)).1 = Except.error SpendError.watchedTx ∧
    SpendAction.dumpPrivKey ∉ (spendStakeChecks (some tx)).2 ∧
    SpendAction.sendRawTransaction ∉ (spendStakeChecks (some tx)).2 := by
  refine ⟨?_, ?_, ?_, ?_, ?_, ?_⟩
  · simp only [handleStakingRequest, hreq, if_true]
    cases addOk <;> cases registerOk <;> simp
  · simp [unbondStaking, unbondPrecheck, htx]
  · simp [unbondStaking, unbondPrecheck, htx]
  · simp [spendStakeChecks, htx]
  · simp [spendStakeChecks, htx]
  · simp [spendStakeChecks, htx]

/-- Witness for C2 at a concrete watched request and watched record. -/
theorem C2_watched_never_broadcast_never_dump_witness :
    EngineAction.sendRawTransaction ∉ handleStakingRequest ⟨true⟩ true true true ∧
    (unbondStaking (some ⟨true, TransactionState.SENT_TO_BABYLON⟩)
        (some 2000) 2500 none).1 =
      UnbondReturn.directError UnbondError.watchedTx ∧
    (spendStakeChecks (some ⟨true, TransactionState.SENT_TO_BABYLON⟩)).1 =
      Except.error SpendError.watchedTx := by
  have h := C2_watched_never_broadcast_never_dump ⟨true⟩ true true true
    ⟨true, TransactionState.SENT_TO_BABYLON⟩ (some 2000) 2500 none rfl rfl
  exact ⟨h.1, h.2.1, h.2.2.2.1⟩

/-- C6 counterexample: for a concrete watched record, `UnbondStaking`
returns the watched-transaction error as a direct function return with an
empty action trace — the unbonding request is never created, so the error
is not delivered over the request error channel as the claim states. -/
theorem C6_counterexample_watched_error_is_direct :
    (unbondStaking (some ⟨true, TransactionState.SENT_TO_BABYLON⟩)
        (some 2000) 2500 none).1 =
      UnbondReturn.directError UnbondError.watchedTx ∧
    (unbondStaking (some ⟨true, TransactionState.SENT_TO_BABYLON⟩)
        (some 2000) 2500 none).1 ≠
      UnbondReturn.channelError UnbondError.watchedTx ∧
    (unbondStaking (some ⟨true, TransactionState.SENT_TO_BABYLON⟩)
        (some 2000) 2500 none).2 = [] := by
  refine ⟨by decide, by decide, by decide⟩

/-- C6 (amended): `UnbondStaking` returns an error directly to the caller,
with no request created and the persisted state unchanged, unless all
preconditions hold: the record exists, is not watched, is in state
SENT_TO_BABYLON, and the fee rate is at least the 1000 sat/kb floor; a
watched record yields exactly the watched-transaction error, a fee rate of
1000 passes the fee check, and 999 fails it. -/
theorem C6_unbond_preconditions (feeRate : Option Int) (est : Int)
    (ans : Option UnbondError) (tx : StoredTransaction) :
    (unbondStaking none feeRate est ans).1 =
      UnbondReturn.directError UnbondError.txNotFound ∧
    (tx.watched = true →
      (unbondStaking (some tx) feeRate est ans).1 =
        UnbondReturn.directError UnbondError.watchedTx) ∧
    (tx.watched = false → tx.state ≠ TransactionState.SENT_TO_BABYLON →
      (unbondStaking (some tx) feeRate est ans).1 =
        UnbondReturn.directError UnbondError.wrongState) ∧
    (tx.watched = false → tx.state = TransactionState.SENT_TO_BABYLON →
      (unbondStaking (some tx) (some 999) est ans).1 =
        UnbondReturn.directError UnbondError.feeTooLow) ∧
    (tx.watched = false → tx.state = TransactionState.SENT_TO_BABYLON →
      ∀ e, (unbondStaking (some tx) (some 1000) est ans).1 ≠
        UnbondReturn.directError e) ∧
    (∀ rec e, (unbondStaking rec feeRate est ans).1 = UnbondReturn.directError e →
      unbondStakingFinalState rec feeRate est ans = rec ∧
      (unbondStaking rec feeRate est ans).2 = []) := by
  refine ⟨?_, ?_, ?_, ?_, ?_, ?_⟩
  · simp [unbondStaking, unbondPrecheck]
  · intro h
    simp [unbondStaking, unbondPrecheck, h]
  · intro h1 h2
    simp [unbondStaking, unbondPrecheck, h1, h2]
  · intro h1 h2
    simp [unbondStaking, unbondPrecheck, h1, h2, MinFeePerKb]
  · intro h1 h2 e
    have hpre : unbondPrecheck (some tx) 1000 = none := by
      simp [unbondPrecheck, h1, h2, MinFeePerKb]
    cases ans <;> simp [unbondStaking, hpre]
  · intro rec e h
    revert h
    cases hpre : unbondPrecheck rec
        (match feeRate with | none => est | some f => f) with
    | some e2 =>
        intro h
        constructor
        · simp [unbondStakingFinalState, h]
        · simp [unbondStaking, hpre]
    | none =>
        intro h
        exfalso
        cases ans <;> simp [unbondStaking, hpre] at h

/-- Witness for C6 at concrete inputs: a fee rate of 999 fails the fee
check, 1000 passes it, and a watched record keeps its persisted state. -/
theorem C6_unbond_preconditions_witness :
    (unbondStaking (some ⟨false, TransactionState.SENT_TO_BABYLON⟩)
        (some 999) 2500 none).1 =
      UnbondReturn.directError UnbondError.feeTooLow ∧
    (unbondStaking (some ⟨false, TransactionState.SENT_TO_BABYLON⟩)
        (some 1000) 2500 none).1 ≠
      UnbondReturn.directError UnbondError.feeTooLow ∧
    unbondStakingFinalState (some ⟨true, TransactionState.SENT_TO_BABYLON⟩)
        (some 2000) 2500 none =
      some ⟨true, TransactionState.SENT_TO_BABYLON⟩ := by
  have h999 := C6_unbond_preconditions (some 999) 2500 none
    ⟨false, TransactionState.SENT_TO_BABYLON⟩
  have h1000 := C6_unbond_preconditions (some 1000) 2500 none
    ⟨false, TransactionState.SENT_TO_BABYLON⟩
  have hw := C6_unbond_preconditions (some 2000) 2500 none
    ⟨true, TransactionState.SENT_TO_BABYLON⟩
  exact ⟨h999.2.2.2.1 rfl rfl, h1000.2.2.2.2.1 rfl rfl UnbondError.feeTooLow,
    (hw.2.2.2.2.2 (some ⟨true, TransactionState.SENT_TO_BABYLON⟩)
      UnbondError.watchedTx (by decide)).1⟩

/-- C7: the spend confirmation watch is registered for exactly 3
confirmations with a 2-hour timeout; the SPENT_ON_BTC write happens only
when the confirmation event fires; on timeout the waiting helper exits with
no state write, so a delegation in SENT_TO_BABYLON or
UNBONDING_CONFIRMED_ON_BTC keeps its state and never reaches SPENT_ON_BTC
in that run. -/
theorem C7_spend_confirmation_timeout (s : TransactionState) (q : Bool)
    (ev : SpendWaitEvent) (tx : StoredTransaction) (htx : tx.watched = false) :
    SpendStakeTxConfirmations = 3 ∧
    timeoutWaitingForSpendConfirmationSeconds = 7200 ∧
    SpendAction.registerConfWatch 3 ∈ (spendStakeChecks (some tx)).2 ∧
    (spendFlowFinalState s q ev = TransactionState.SPENT_ON_BTC →
      s = TransactionState.SPENT_ON_BTC ∨
        (q = false ∧ ev = SpendWaitEvent.confirmed)) ∧
    (ev = SpendWaitEvent.timedOut → spendFlowFinalState s q ev = s) ∧
    ((s = TransactionState.SENT_TO_BABYLON ∨
        s = TransactionState.UNBONDING_CONFIRMED_ON_BTC) →
      ev = SpendWaitEvent.timedOut →
      spendFlowFinalState s q ev ≠ TransactionState.SPENT_ON_BTC) := by
  refine ⟨rfl, rfl, ?_, ?_, ?_, ?_⟩
  · simp [spendStakeChecks, htx, SpendStakeTxConfirmations]
  · intro h
    cases q
    · cases ev
      · exact Or.inr ⟨rfl, rfl⟩
      · exact Or.inl h
      · exact Or.inl h
    · exact Or.inl h
  · intro h
    subst h
    cases q <;> rfl
  · intro hs hev
    subst hev
    rcases hs with h | h <;> subst h <;> cases q <;> decide

/-- Witness for C7: a delegation in SENT_TO_BABYLON whose spend
confirmation times out keeps its state. -/
theorem C7_spend_confirmation_timeout_witness :
    SpendAction.registerConfWatch 3 ∈
      (spendStakeChecks (some ⟨false, TransactionState.SENT_TO_BABYLON⟩)).2 ∧
    spendFlowFinalState TransactionState.SENT_TO_BABYLON false
        SpendWaitEvent.timedOut = TransactionState.SENT_TO_BABYLON ∧
    spendFlowFinalState TransactionState.SENT_TO_BABYLON false
        SpendWaitEvent.timedOut ≠ TransactionState.SPENT_ON_BTC := by
  have h := C7_spend_confirmation_timeout TransactionState.SENT_TO_BABYLON false
    SpendWaitEvent.timedOut ⟨false, TransactionState.SENT_TO_BABYLON⟩ rfl
  exact ⟨h.2.2.1, h.2.2.2.2.1 rfl, h.2.2.2.2.2 (Or.inl rfl) rfl⟩

/-- Each failed attempt that retries waits exactly one 30-second interval:
the accumulated wait time of a retry loop is 30 seconds per retried
failure. -/
theorem retryLoopWaitTime_eq_thirty_mul (l : List AttemptOutcome) :
    retryLoopWaitTime l = 30 * retriesBeforeDecision l := by
  induction l with
  | nil => rfl
  | cons a rest ih =>
    cases a
    · rfl
    · show unbondingSendRetryTimeoutSeconds + retryLoopWaitTime rest =
        30 * (retriesBeforeDecision rest + 1)
      rw [ih]
      simp [unbondingSendRetryTimeoutSeconds]
      ring
    · rfl

/-- C8: both loops of `sendUnbondingTxToBtc` retry on a uniform 30-second
schedule (the wait time is 30 seconds per retried failure, and a loop ends
only by success or quit); the function returns a nil confirmation event
exactly when the quit signal fired before success — in the broadcast loop
or, after a successful broadcast, in the registration loop — and returns a
registered confirmation event exactly when both loops succeeded. -/
theorem C8_unbonding_retry_policy (sends regs : List AttemptOutcome)
    (hs : runRetryLoop sends ≠ LoopResult.pending)
    (hr : runRetryLoop regs ≠ LoopResult.pending) :
    unbondingSendRetryTimeoutSeconds = 30 ∧
    retryLoopWaitTime sends = 30 * retriesBeforeDecision sends ∧
    retryLoopWaitTime regs = 30 * retriesBeforeDecision regs ∧
    (sendUnbondingTxToBtc sends regs = none ↔
      runRetryLoop sends = LoopResult.quitSignal ∨
        (runRetryLoop sends = LoopResult.ok ∧
         runRetryLoop regs = LoopResult.quitSignal)) ∧
    (sendUnbondingTxToBtc sends regs = some () ↔
      runRetryLoop sends = LoopResult.ok ∧
        runRetryLoop regs = LoopResult.ok) := by
  refine ⟨rfl, retryLoopWaitTime_eq_thirty_mul sends,
    retryLoopWaitTime_eq_thirty_mul regs, ?_, ?_⟩
  · cases hsend : runRetryLoop sends <;> cases hreg : runRetryLoop regs <;>
      simp_all [sendUnbondingTxToBtc]
  · cases hsend : runRetryLoop sends <;> cases hreg : runRetryLoop regs <;>
      simp_all [sendUnbondingTxToBtc]

/-- Witness for C8: one failed broadcast retried after 30 seconds followed
by a successful broadcast and a successful registration yields a
confirmation event. -/
theorem C8_unbonding_retry_policy_witness :
    sendUnbondingTxToBtc [AttemptOutcome.failRetry, AttemptOutcome.success]
      [AttemptOutcome.success] = some () ∧
    retryLoopWaitTime [AttemptOutcome.failRetry, AttemptOutcome.success] = 30 := by
  have h := C8_unbonding_retry_policy
    [AttemptOutcome.failRetry, AttemptOutcome.success] [AttemptOutcome.success]
    (by decide) (by decide)
  exact ⟨h.2.2.2.2.mpr (by decide), h.2.1.trans (by decide)⟩

/-- C9 counterexample: `WatchStaking` has no entry quit check; after the
quit signal has fired, the embedded run of its steps blocks forever on the
unguarded `stakingRequestChan` send (the engine loop has returned), so the
caller does not receive the null-result/nil-error return the claim states
for every public request operation. -/
theorem C9_counterexample_watch_staking_after_quit :
    runOpWhenQuitFired watchStakingSteps = CallOutcome.blockedForever ∧
    runOpWhenQuitFired watchStakingSteps ≠ CallOutcome.nullNil := by
  refine ⟨rfl, by decide⟩

/-- C9 (amended): `StakeFunds`, `UnbondStaking` and `SpendStake` return a
null result with a nil error when the quit signal has fired at entry, with
neither per-request channel involved; `WatchStaking` lacks the entry quit
check and, once quit has fired, blocks handing its request to the stopped
engine instead of returning; and the engine writes exactly one of the two
per-request channels while serving a staking request, hence at most one. -/
theorem C9_quit_returns_null (req : StakingRequest)
    (sendOk addOk registerOk : Bool) :
    runOpWhenQuitFired stakeFundsSteps = CallOutcome.nullNil ∧
    runOpWhenQuitFired unbondStakingSteps = CallOutcome.nullNil ∧
    runOpWhenQuitFired spendStakeSteps = CallOutcome.nullNil ∧
    runOpWhenQuitFired watchStakingSteps = CallOutcome.blockedForever ∧
    chanWrites (handleStakingRequest req sendOk addOk registerOk) = 1 := by
  refine ⟨rfl, rfl, rfl, rfl, ?_⟩
  cases req with
  | mk w => cases w <;> cases sendOk <;> cases addOk <;> cases registerOk <;> rfl

/-- Witness for C9 at a concrete owned request. -/
theorem C9_quit_returns_null_witness :
    runOpWhenQuitFired stakeFundsSteps = CallOutcome.nullNil ∧
    chanWrites (handleStakingRequest ⟨false⟩ true true true) = 1 := by
  have h := C9_quit_returns_null ⟨false⟩ true true true
  exact ⟨h.1, h.2.2.2.2⟩

end BtcStaker
